import Mathlib

/-!
# Verification of the image_rater ranking engine

Shallow embedding of the ranking core of `src/image_rater.py` (class
`ImageRater`): the Elo-style rating update, the random pair scheduler and its
deterministic rejection-path fallback, the exhaustion guard, rejection
handling, session save/load, and the percentile category assigner.

Modelling conventions:
* Python dicts that map image names to values become association lists
  (`List (String × _)`) so that insertion order — which the category
  assigner's stable sort observes — is preserved.
* The session state is polymorphic in the rating type `ρ`.  The source works
  with Python floats; rating-value theorems instantiate `ρ := ℝ` with the
  exact real power function `fun x => (10:ℝ) ^ x` (Python `10 ** x`), which
  `update_ratings` receives as the explicit argument `tenPow`.
* `random.choice` results are modelled as an explicit list of draws consumed
  by the retry loop; a result of `none` on every finite draw list models the
  `while True:` loop not returning.
* Filesystem effects (copying rejected files, `os.listdir` of the `rejected`
  subfolder) appear only as explicit inputs: `compare_images` takes the
  listing of the rejected folder as the parameter `rejectedDir`.
-/

namespace ImageRater

/-- An ordered pair of image names, as stored in `self.comparisons`. -/
abbrev IPair := String × String

/-- Which side of the pending comparison an action refers to
(`'left'` / `'right'` in the source). -/
inductive Side where
  | left
  | right
deriving DecidableEq

/-- The in-memory session state of an `ImageRater` instance: the fields of
`self` that the ranking core reads and writes (`image_rater.py`,
`__init__`, lines 106-152). -/
structure RaterState (ρ : Type) where
  is_folder : Bool
  set_name : String
  image_files : List String
  ratings : List (String × ρ)
  comparisons : List IPair
  current_comparison : Option IPair
  current_comparison_number : Nat
  num_images : Nat

/-- The unordered pair `{a, b}` is already in the comparison record list
(either orientation), as tested on lines 397 and 530 of the source. -/
def pairRecorded (comps : List IPair) (a b : String) : Prop :=
  (a, b) ∈ comps ∨ (b, a) ∈ comps

instance (comps : List IPair) (a b : String) : Decidable (pairRecorded comps a b) := by
  unfold pairRecorded; infer_instance

/-- `ImageRater.get_next_comparison` (lines 393-399): the `while True:`
rejection-sampling loop.  Each element of `draws` is one iteration's pair of
`random.choice(self.image_files)` results; the first draw of two distinct
images whose unordered pair is unrecorded is appended to `comparisons` and
returned.  `none` means the loop was still running after consuming every
modelled draw — on an infinite stream of such draws the Python loop never
returns, since it has no exhaustion fallback. -/
def get_next_comparison (comps : List IPair) : List IPair → Option (IPair × List IPair)
  | [] => none
  | (image1, image2) :: rest =>
    if image1 ≠ image2 ∧ (image1, image2) ∉ comps ∧ (image2, image1) ∉ comps then
      some ((image1, image2), comps ++ [(image1, image2)])
    else
      get_next_comparison comps rest

/-- `ImageRater.get_next_image` (lines 528-533): the deterministic scan used
after a rejection.  Scans `files` (the live `self.image_files`) in order and
returns the first image that differs from `current_image` and whose unordered
pair with it is unrecorded, appending that pair to `comparisons`; `none` when
no such image exists. -/
def get_next_image (comps : List IPair) (current_image : String) :
    List String → Option (String × List IPair)
  | [] => none
  | image :: rest =>
    if image ≠ current_image ∧ (current_image, image) ∉ comps ∧
        (image, current_image) ∉ comps then
      some (image, comps ++ [(current_image, image)])
    else
      get_next_image comps current_image rest

/-- Outcome of one `ImageRater.compare_images` call (lines 369-391). -/
inductive CompareOutcome where
  | notEnoughImages                 -- fewer than 2 live images: completion message
  | allDone                         -- all possible comparisons made: completion message
  | keptPending (p : IPair)         -- a pending comparison already exists; nothing scheduled
  | scheduled (p : IPair)           -- a fresh pair was scheduled and shown
  | looping                         -- the retry loop consumed all modelled draws without returning
deriving DecidableEq

/-- `ImageRater.compare_images` (lines 369-391).  In folder mode the live
list is first re-filtered against the rejected-folder listing (`rejectedDir`
models `os.listdir(self.rejected_folder_path)`, line 374).  With no pending
comparison, a new pair is requested from `get_next_comparison` only when
`len(self.comparisons) < self.num_images * (self.num_images - 1) // 2` and
more than one live image remains (line 383). -/
def live_files {ρ : Type} (rejectedDir : List String) (s : RaterState ρ) : List String :=
  if s.is_folder then s.image_files.filter (fun f => f ∉ rejectedDir) else s.image_files

def compare_images {ρ : Type} (rejectedDir : List String) (draws : List IPair)
    (s : RaterState ρ) : CompareOutcome × RaterState ρ :=
  let files := live_files rejectedDir s
  let s1 : RaterState ρ := { s with image_files := files }
  if files.length < 2 then
    (.notEnoughImages, s1)
  else
    match s1.current_comparison with
    | some p => (.keptPending p, s1)
    | none =>
      if s1.comparisons.length < s1.num_images * (s1.num_images - 1) / 2 ∧
          files.length > 1 then
        match get_next_comparison s1.comparisons draws with
        | some (p, comps) =>
          (.scheduled p, { s1 with comparisons := comps, current_comparison := some p })
        | none => (.looping, s1)
      else
        (.allDone, s1)

/-- Overwrite the value stored under key `k` (Python `self.ratings[k] = v` on
an existing key: the value changes, insertion order is preserved). -/
def setKey {ρ : Type} (l : List (String × ρ)) (k : String) (v : ρ) : List (String × ρ) :=
  l.map (fun p => if p.1 = k then (p.1, v) else p)

/-- `ImageRater.update_ratings` (lines 535-546): the Elo update, K-factor 32.
`tenPow` is the real power function `x ↦ 10 ** x` of line 539-540, passed
explicitly so the definition stays computable; the rating-value theorems
instantiate it with `fun x => (10:ℝ) ^ x`.  Both expected scores are computed
from the pre-update ratings `r1`, `r2`; the two `+=` writes happen in source
order (first `image1`, then `image2`).  The source raises `KeyError` when a
key is absent; here an absent key reads as `0` and the theorems assume both
keys are present. -/
def update_ratings {ρ : Type} [LinearOrderedField ρ] (tenPow : ρ → ρ)
    (s : RaterState ρ) (image1 image2 winner : String) : RaterState ρ :=
  let k : ρ := 32
  let r1 := (s.ratings.lookup image1).getD 0
  let r2 := (s.ratings.lookup image2).getD 0
  let expected1 := 1 / (1 + tenPow ((r2 - r1) / 400))
  let expected2 := 1 / (1 + tenPow ((r1 - r2) / 400))
  if winner = image1 then
    let l1 := setKey s.ratings image1 ((s.ratings.lookup image1).getD 0 + k * (1 - expected1))
    let l2 := setKey l1 image2 ((l1.lookup image2).getD 0 + k * (0 - expected2))
    { s with ratings := l2 }
  else
    let l1 := setKey s.ratings image1 ((s.ratings.lookup image1).getD 0 + k * (0 - expected1))
    let l2 := setKey l1 image2 ((l1.lookup image2).getD 0 + k * (1 - expected2))
    { s with ratings := l2 }

/-- `ImageRater.choose_left` (lines 458-463): with a pending comparison, the
left image wins, the counter is incremented and the pending comparison
cleared; with none, the whole body is skipped.  The trailing
`self.compare_images()` call schedules the next pair; it consumes fresh
randomness and the rejected-folder listing, so it is modelled as the caller's
next `compare_images` step. -/
def choose_left {ρ : Type} [LinearOrderedField ρ] (tenPow : ρ → ρ)
    (s : RaterState ρ) : RaterState ρ :=
  match s.current_comparison with
  | none => s
  | some (c0, c1) =>
    let s1 := update_ratings tenPow s c0 c1 c0
    { s1 with current_comparison_number := s1.current_comparison_number + 1,
              current_comparison := none }

/-- `ImageRater.choose_right` (lines 465-470), analogous to `choose_left`
with the right image as winner. -/
def choose_right {ρ : Type} [LinearOrderedField ρ] (tenPow : ρ → ρ)
    (s : RaterState ρ) : RaterState ρ :=
  match s.current_comparison with
  | none => s
  | some (c0, c1) =>
    let s1 := update_ratings tenPow s c0 c1 c1
    { s1 with current_comparison_number := s1.current_comparison_number + 1,
              current_comparison := none }

/-- The image being rejected: `self.current_comparison[0 if side == 'left'
else 1]` (line 474). -/
def rejectedOf (side : Side) (p : IPair) : String :=
  match side with
  | .left => p.1
  | .right => p.2

/-- The surviving image: `self.current_comparison[1 if side == 'left' else 0]`
(line 516). -/
def survivorOf (side : Side) (p : IPair) : String :=
  match side with
  | .left => p.2
  | .right => p.1

/-- `ImageRater.reject_image` (lines 472-526).  With a pending comparison:
the rejected image's file is copied to the rejected folder (external I/O,
not modelled), the image is removed from `self.image_files` and
`self.ratings`, `num_images` is decremented, and `get_next_image` looks for a
new partner for the survivor in the updated live list.  If one is found the
pending comparison keeps the survivor on its original side; otherwise it is
cleared (the source then re-invokes `compare_images`, modelled as the
caller's next step).  With no pending comparison the whole body is skipped.
(Python `list.remove` / `del dict[k]` raise when the key is absent; the
rejected image of a scheduled pair is always live, so `erase`/`eraseP` agree
with the source there.) -/
def reject_image {ρ : Type} (side : Side) (s : RaterState ρ) : RaterState ρ :=
  match s.current_comparison with
  | none => s
  | some p =>
    let rejected := rejectedOf side p
    let files := s.image_files.erase rejected
    let ratings := s.ratings.eraseP (fun q => q.1 == rejected)
    let remaining := survivorOf side p
    match get_next_image s.comparisons remaining files with
    | some (newImage, comps) =>
      { s with image_files := files, ratings := ratings,
               num_images := s.num_images - 1, comparisons := comps,
               current_comparison :=
                 some (match side with
                       | .right => (remaining, newImage)
                       | .left => (newImage, remaining)) }
    | none =>
      { s with image_files := files, ratings := ratings,
               num_images := s.num_images - 1,
               current_comparison := none }

/-- The persisted session record written by `save_progress` and read by
`load_set_from_file` (lines 855-888 and 916-1019).  `Option` fields model
keys that may be absent from the JSON object.  Folder-backed records carry no
`file_paths` entry (the `file_paths` branch of the loader probes the
filesystem and is outside this embedding, which models folder-backed
sessions). -/
structure ProgressData (ρ : Type) where
  set_name : Option String
  ratings : Option (List (String × ρ))
  comparisons : Option (List IPair)
  current_comparison_number : Option Nat
  current_comparison : Option IPair

/-- `ImageRater.save_progress` (lines 855-888), data part: the JSON record
for a folder-backed session.  `current_comparison` is written only when a
comparison is pending, which the `Option` field captures directly. -/
def save_progress {ρ : Type} (s : RaterState ρ) : ProgressData ρ :=
  { set_name := some s.set_name
    ratings := some s.ratings
    comparisons := some s.comparisons
    current_comparison_number := some s.current_comparison_number
    current_comparison := s.current_comparison }

/-- Lines 970-972 of `load_set_from_file`: `for img in self.image_files: if
img not in self.ratings: self.ratings[img] = 1500` — initialise missing
images, appending in file order. -/
def initMissingRatings {ρ : Type} [LinearOrderedField ρ]
    (files : List String) (ratings : List (String × ρ)) : List (String × ρ) :=
  files.foldl (fun acc img => if (acc.lookup img).isSome then acc else acc ++ [(img, 1500)])
    ratings

/-- `ImageRater.load_set_from_file` (lines 916-1019) for a folder-backed
session restoring a folder-backed record (no `file_paths` entry, so the
file-paths block of lines 925-957 and the `if not self.is_folder` block are
skipped).  Mutations happen on `self` in source order inside a blanket
`try/except` that returns `False`:
* `set_name` is taken from the record first (line 922);
* `progress_data["ratings"]` (line 964) raises `KeyError` when the key is
  missing — load fails with only `set_name` mutated.  When present it is
  bound to the local `loaded_ratings`, which the source never assigns to
  `self.ratings`: the saved ratings are discarded;
* `comparisons`, the counter and the pending comparison are loaded (lines
  965-967), missing ratings are initialised to 1500, comparisons are filtered
  to live images, a pending comparison naming a dead image is dropped, the
  counter is recomputed as `len(self.comparisons)` and `num_images` as
  `len(self.image_files)` (lines 975-989);
* line 992 `if missing_files:` then raises `UnboundLocalError` for a record
  without `file_paths` (the variable is only assigned inside the file-paths
  branch), so the source returns `False` even on this fully-mutated path. -/
def load_set_from_file {ρ : Type} [LinearOrderedField ρ]
    (s : RaterState ρ) (d : ProgressData ρ) : Bool × RaterState ρ :=
  let s1 := { s with set_name := d.set_name.getD s.set_name }
  match d.ratings with
  | none => (false, s1)
  | some _loaded_ratings =>
    match d.comparisons with
    | none => (false, s1)
    | some comps =>
      let s2 := { s1 with comparisons := comps,
                          current_comparison_number := d.current_comparison_number.getD 0,
                          current_comparison := d.current_comparison }
      let s3 := { s2 with ratings := initMissingRatings s2.image_files s2.ratings }
      let s4 := { s3 with
        comparisons := s3.comparisons.filter
          (fun p => p.1 ∈ s3.image_files ∧ p.2 ∈ s3.image_files) }
      let s5 :=
        match s4.current_comparison with
        | some p =>
          if p.1 ∈ s4.image_files ∧ p.2 ∈ s4.image_files then s4
          else { s4 with current_comparison := none }
        | none => s4
      let s6 := { s5 with current_comparison_number := s5.comparisons.length,
                          num_images := s5.image_files.length }
      (false, s6)

/-- The state of a freshly constructed folder-backed `ImageRater` before any
progress file is loaded (`__init__`, lines 122-141): every listed image gets
rating 1500, no comparisons, no pending comparison. -/
def fresh_state {ρ : Type} [LinearOrderedField ρ] (files : List String) : RaterState ρ :=
  { is_folder := true
    set_name := "Default"
    image_files := files
    ratings := files.map (fun f => (f, 1500))
    comparisons := []
    current_comparison := none
    current_comparison_number := 0
    num_images := files.length }

/-- One scheduling-plus-decision cycle: `compare_images` schedules a fresh
pair, then `choose_left` / `choose_right` resolves it.  `none` when no pair
was scheduled (exhaustion, a kept pending pair, or a non-returning retry
loop). -/
def do_cycle {ρ : Type} [LinearOrderedField ρ] (tenPow : ρ → ρ)
    (rejectedDir : List String) (draws : List IPair) (leftWins : Bool)
    (s : RaterState ρ) : Option (RaterState ρ) :=
  match compare_images rejectedDir draws s with
  | (.scheduled _, s1) =>
    some (if leftWins then choose_left tenPow s1 else choose_right tenPow s1)
  | _ => none

/-- A sequence of successful scheduling-plus-decision cycles. -/
def run_cycles {ρ : Type} [LinearOrderedField ρ] (tenPow : ρ → ρ)
    (rejectedDir : List String) :
    List (List IPair × Bool) → RaterState ρ → Option (RaterState ρ)
  | [], s => some s
  | (draws, leftWins) :: rest, s =>
    (do_cycle tenPow rejectedDir draws leftWins s).bind (run_cycles tenPow rejectedDir rest)

/-- Percentile bucketing of lines 664-674 (identical on lines 735-750 and
1175-1185): `percentile = (i / num_images) * 100`, category 5 below 20, 4
below 40, 3 below 60, 2 below 80, else 1.  Python computes the percentile in
floating point; it is modelled as the exact rational. -/
def exif_rating (i num_images : Nat) : Nat :=
  let percentile : ℚ := (i : ℚ) / (num_images : ℚ) * 100
  if percentile < 20 then 5
  else if percentile < 40 then 4
  else if percentile < 60 then 3
  else if percentile < 80 then 2
  else 1

/-- The comparison used by `sorted(self.ratings.items(), key=lambda x: x[1],
reverse=True)`: descending by rating. -/
def ratingDesc {ρ : Type} [LinearOrder ρ] (p q : String × ρ) : Prop :=
  q.2 ≤ p.2

instance {ρ : Type} [LinearOrder ρ] : DecidableRel (ratingDesc (ρ := ρ)) :=
  fun p q => inferInstanceAs (Decidable (q.2 ≤ p.2))

instance {ρ : Type} [LinearOrder ρ] : IsTotal (String × ρ) ratingDesc :=
  ⟨fun p q => le_total q.2 p.2⟩

instance {ρ : Type} [LinearOrder ρ] : IsTrans (String × ρ) ratingDesc :=
  ⟨fun _ _ _ hab hbc => le_trans hbc hab⟩

/-- `sorted(self.ratings.items(), key=lambda x: x[1], reverse=True)` (line
639): a stable descending sort of the ratings items.  Python's `sorted` is
stable and `reverse=True` keeps equal-key items in insertion order, which
`insertionSort` with the reflexive relation `ratingDesc` reproduces. -/
def sorted_images {ρ : Type} [LinearOrder ρ] (l : List (String × ρ)) : List (String × ρ) :=
  l.insertionSort ratingDesc

/-- `ImageRater.save_ratings_to_exif` (lines 637-703), category part: sort
descending, then give the image at sorted index `i` the category
`exif_rating i num_images`.  `copy_best_images` (lines 733-750) and
`save_ratings_direct` (lines 1173-1185) bucket identically. -/
def save_ratings_to_exif {ρ : Type} [LinearOrder ρ]
    (ratings : List (String × ρ)) : List (String × Nat) :=
  let sorted := sorted_images ratings
  sorted.enum.map (fun ip => (ip.2.1, exif_rating ip.1 sorted.length))

/-- The session state reached by: rating images `a, b, c` in a folder whose
`rejected` subfolder already contains `c` (rejection copies the file there
but leaves the original, so a later run lists all three), after reloading the
saved set whose records are `(a, b)` and `(a, c)`.  `num_images` is 3 while
only `a` and `b` survive the rejected-folder filter. -/
def stale_guard_state (ρ : Type) (ratings : List (String × ρ)) : RaterState ρ :=
  { is_folder := true
    set_name := "Default"
    image_files := ["a", "b", "c"]
    ratings := ratings
    comparisons := [("a", "b"), ("a", "c")]
    current_comparison := none
    current_comparison_number := 2
    num_images := 3 }

/-- A mid-session state with the pair `(a, b)` pending: images `a, b, c`,
one recorded comparison. -/
def pending_ab_state : RaterState ℚ :=
  { is_folder := true
    set_name := "Default"
    image_files := ["a", "b", "c"]
    ratings := [("a", 1500), ("b", 1500), ("c", 1500)]
    comparisons := [("a", "b")]
    current_comparison := some ("a", "b")
    current_comparison_number := 1
    num_images := 3 }

/-- A prior in-memory session state named `Old`, used to exhibit what
`load_set_from_file` mutates on a failing restore. -/
def old_name_state : RaterState ℚ :=
  { fresh_state ["a", "b"] with set_name := "Old" }

/-- A persisted record whose `ratings` key is missing. -/
def missing_ratings_record : ProgressData ℚ :=
  { set_name := some "New"
    ratings := none
    comparisons := some []
    current_comparison_number := some 0
    current_comparison := none }

/-- A persisted record whose `ratings` key is present but empty. -/
def empty_ratings_record : ProgressData ℚ :=
  { set_name := some "New"
    ratings := some []
    comparisons := some [("a", "b")]
    current_comparison_number := some 7
    current_comparison := none }

/-- `p` and `q` name the same unordered pair. -/
def sameUnordered (p q : IPair) : Prop :=
  p = q ∨ (p.1 = q.2 ∧ p.2 = q.1)

instance (p q : IPair) : Decidable (sameUnordered p q) := by
  unfold sameUnordered; infer_instance

/-- No unordered pair occurs twice in the comparison record list: the
data-model invariant of the record set. -/
def NoDupPairs (comps : List IPair) : Prop :=
  comps.Pairwise (fun p q => ¬ sameUnordered p q)

instance (comps : List IPair) : Decidable (NoDupPairs comps) := by
  unfold NoDupPairs; infer_instance

section SchedulerLemmas

/-- Soundness of the rejection-sampling loop: a returned pair is one of the
draws, is made of distinct images, was unrecorded, and is the one new record
appended. -/
theorem get_next_comparison_sound (comps : List IPair) :
    ∀ (draws : List IPair) (p : IPair) (comps' : List IPair),
      get_next_comparison comps draws = some (p, comps') →
      p ∈ draws ∧ p.1 ≠ p.2 ∧ ¬ pairRecorded comps p.1 p.2 ∧ comps' = comps ++ [p] := by
  intro draws
  induction draws with
  | nil => intro p comps' h; simp [get_next_comparison] at h
  | cons d rest ih =>
    intro p comps' h
    obtain ⟨d1, d2⟩ := d
    by_cases hc : d1 ≠ d2 ∧ (d1, d2) ∉ comps ∧ (d2, d1) ∉ comps
    · rw [get_next_comparison, if_pos hc] at h
      obtain ⟨rfl, rfl⟩ : p = (d1, d2) ∧ comps' = comps ++ [(d1, d2)] := by
        constructor <;> [exact (Prod.mk.injEq .. ▸ Option.some.inj h).1.symm;
          exact (Prod.mk.injEq .. ▸ Option.some.inj h).2.symm]
      refine ⟨List.mem_cons_self .., hc.1, ?_, rfl⟩
      intro hr
      rcases hr with hr | hr
      · exact hc.2.1 hr
      · exact hc.2.2 hr
    · rw [get_next_comparison, if_neg hc] at h
      obtain ⟨hm, hne, hnr, he⟩ := ih p comps' h
      exact ⟨List.mem_cons_of_mem _ hm, hne, hnr, he⟩

/-- Soundness of the deterministic post-rejection scan: a returned partner is
in the scanned live list, differs from the anchor, forms an unrecorded
unordered pair with it, and that pair is the one new record appended. -/
theorem get_next_image_sound (comps : List IPair) (cur : String) :
    ∀ (files : List String) (b : String) (comps' : List IPair),
      get_next_image comps cur files = some (b, comps') →
      b ∈ files ∧ b ≠ cur ∧ ¬ pairRecorded comps cur b ∧ comps' = comps ++ [(cur, b)] := by
  intro files
  induction files with
  | nil => intro b comps' h; simp [get_next_image] at h
  | cons img rest ih =>
    intro b comps' h
    by_cases hc : img ≠ cur ∧ (cur, img) ∉ comps ∧ (img, cur) ∉ comps
    · rw [get_next_image, if_pos hc] at h
      obtain ⟨rfl, rfl⟩ : b = img ∧ comps' = comps ++ [(cur, img)] := by
        constructor <;> [exact (Prod.mk.injEq .. ▸ Option.some.inj h).1.symm;
          exact (Prod.mk.injEq .. ▸ Option.some.inj h).2.symm]
      refine ⟨List.mem_cons_self .., hc.1, ?_, rfl⟩
      intro hr
      rcases hr with hr | hr
      · exact hc.2.1 hr
      · exact hc.2.2 hr
    · rw [get_next_image, if_neg hc] at h
      obtain ⟨hm, hne, hnr, he⟩ := ih b comps' h
      exact ⟨List.mem_cons_of_mem _ hm, hne, hnr, he⟩

/-- Appending a fresh unordered pair preserves the no-duplicate invariant. -/
theorem noDupPairs_append (comps : List IPair) (p : IPair)
    (h : NoDupPairs comps) (hp : ¬ pairRecorded comps p.1 p.2) :
    NoDupPairs (comps ++ [p]) := by
  unfold NoDupPairs at h ⊢
  rw [List.pairwise_append]
  refine ⟨h, List.pairwise_singleton _ _, ?_⟩
  intro q hq r hr
  rw [List.mem_singleton] at hr
  rw [hr]
  intro hsame
  rcases hsame with h0 | ⟨h1, h2⟩
  · exact hp (Or.inl (h0 ▸ hq))
  · have hq' : q = (p.2, p.1) := Prod.ext h1 h2
    exact hp (Or.inr (hq' ▸ hq))

end SchedulerLemmas

/-- C3: neither scheduling path ever returns an unordered pair that is
already in the comparison record list, and each path preserves the invariant
that no unordered pair is recorded more than once — for every record list,
anchor, live list and sequence of random draws. -/
theorem scheduler_never_repeats_pair :
    (∀ (comps draws : List IPair) (p : IPair) (comps' : List IPair),
        get_next_comparison comps draws = some (p, comps') →
        ¬ pairRecorded comps p.1 p.2) ∧
    (∀ (comps : List IPair) (cur : String) (files : List String) (b : String)
        (comps' : List IPair),
        get_next_image comps cur files = some (b, comps') →
        ¬ pairRecorded comps cur b) ∧
    (∀ (comps draws : List IPair) (p : IPair) (comps' : List IPair),
        NoDupPairs comps → get_next_comparison comps draws = some (p, comps') →
        NoDupPairs comps') ∧
    (∀ (comps : List IPair) (cur : String) (files : List String) (b : String)
        (comps' : List IPair),
        NoDupPairs comps → get_next_image comps cur files = some (b, comps') →
        NoDupPairs comps') := by
  refine ⟨?_, ?_, ?_, ?_⟩
  · intro comps draws p comps' h
    exact (get_next_comparison_sound comps draws p comps' h).2.2.1
  · intro comps cur files b comps' h
    exact (get_next_image_sound comps cur files b comps' h).2.2.1
  · intro comps draws p comps' hnd h
    obtain ⟨-, -, hnr, rfl⟩ := get_next_comparison_sound comps draws p comps' h
    exact noDupPairs_append comps p hnd hnr
  · intro comps cur files b comps' hnd h
    obtain ⟨-, -, hnr, rfl⟩ := get_next_image_sound comps cur files b comps' h
    exact noDupPairs_append comps (cur, b) hnd hnr

/-- Witness for C3 at concrete inputs. -/
theorem scheduler_never_repeats_pair_witness :
    (¬ pairRecorded [] "a" "b") ∧
    (¬ pairRecorded [("a", "b")] "a" "c") ∧
    NoDupPairs [("a", "b")] ∧
    NoDupPairs [("a", "b"), ("a", "c")] :=
  ⟨scheduler_never_repeats_pair.1 [] [("a", "b")] ("a", "b") [("a", "b")] rfl,
   scheduler_never_repeats_pair.2.1 [("a", "b")] "a" ["a", "c"] "c"
     [("a", "b"), ("a", "c")] rfl,
   scheduler_never_repeats_pair.2.2.1 [] [("a", "b")] ("a", "b") [("a", "b")]
     (by decide) rfl,
   scheduler_never_repeats_pair.2.2.2 [("a", "b")] "a" ["a", "c"] "c"
     [("a", "b"), ("a", "c")] (by decide) rfl⟩

/-- C10: with no pending comparison, `choose_left`, `choose_right` and
`reject_image` are silent no-ops: the whole session state — ratings,
comparison records, counter and live list — is unchanged. -/
theorem no_pending_decisions_are_noops (ρ : Type) [LinearOrderedField ρ]
    (tenPow : ρ → ρ) (s : RaterState ρ) (side : Side)
    (h : s.current_comparison = none) :
    choose_left tenPow s = s ∧ choose_right tenPow s = s ∧ reject_image side s = s := by
  refine ⟨?_, ?_, ?_⟩
  · unfold choose_left; rw [h]
  · unfold choose_right; rw [h]
  · unfold reject_image; rw [h]

/-- Witness for C10 at a concrete state. -/
theorem no_pending_decisions_are_noops_witness :
    choose_left (fun x => x) (fresh_state (ρ := ℚ) ["a", "b"]) = fresh_state ["a", "b"] ∧
    choose_right (fun x => x) (fresh_state (ρ := ℚ) ["a", "b"]) = fresh_state ["a", "b"] ∧
    reject_image Side.left (fresh_state (ρ := ℚ) ["a", "b"]) = fresh_state ["a", "b"] :=
  no_pending_decisions_are_noops ℚ (fun x => x) (fresh_state ["a", "b"]) Side.left rfl

section RetryLoopBug

/-- With live images `a, b` and the pair `(a, b)` already recorded, the retry
loop rejects every draw taken from the live list, so it never returns. -/
theorem get_next_comparison_ab_none (draws : List IPair)
    (hdraws : ∀ d ∈ draws, d.1 ∈ (["a", "b"] : List String) ∧
        d.2 ∈ (["a", "b"] : List String)) :
    get_next_comparison [("a", "b"), ("a", "c")] draws = none := by
  induction draws with
  | nil => rfl
  | cons d rest ih =>
    obtain ⟨d1, d2⟩ := d
    have hd := hdraws (d1, d2) (List.mem_cons_self ..)
    have hrest : ∀ d ∈ rest, d.1 ∈ (["a", "b"] : List String) ∧
        d.2 ∈ (["a", "b"] : List String) :=
      fun d hx => hdraws d (List.mem_cons_of_mem _ hx)
    simp only [List.mem_cons, List.mem_singleton, List.not_mem_nil, or_false] at hd
    have hcond : ¬ (d1 ≠ d2 ∧ (d1, d2) ∉ ([("a", "b"), ("a", "c")] : List IPair) ∧
        (d2, d1) ∉ ([("a", "b"), ("a", "c")] : List IPair)) := by
      rcases hd.1 with rfl | rfl <;> rcases hd.2 with rfl | rfl <;> decide
    rw [get_next_comparison, if_neg hcond]
    exact ih hrest

end RetryLoopBug

/-- C4 (code bug): at the reachable state `stale_guard_state` the completion
guard of `compare_images` passes (`len(comparisons) = 2 < 3 = num_images *
(num_images - 1) // 2`) although every unordered pair of the two live images
is already recorded, so `get_next_comparison`'s `while True:` loop is entered
and — for every sequence of draws from the live list — never returns.  There
is no `Exhausted` fallback: the outcome is `looping` for all draw sequences,
refuting the claimed termination. -/
theorem retry_loop_never_returns_at_stale_guard (ρ : Type)
    (ratings : List (String × ρ)) (draws : List IPair)
    (hdraws : ∀ d ∈ draws, d.1 ∈ (["a", "b"] : List String) ∧
        d.2 ∈ (["a", "b"] : List String)) :
    (compare_images ["c"] draws (stale_guard_state ρ ratings)).1 =
      CompareOutcome.looping := by
  have hg := get_next_comparison_ab_none draws hdraws
  simp only [compare_images]
  rw [show live_files ["c"] (stale_guard_state ρ ratings) = ["a", "b"] from rfl]
  simp [stale_guard_state, hg]

/-- Witness for C4: one concrete draw sequence from the live list. -/
theorem retry_loop_never_returns_at_stale_guard_witness :
    (compare_images ["c"] [("a", "b"), ("b", "a")]
        (stale_guard_state ℚ [("a", 1500), ("b", 1500), ("c", 1500)])).1 =
      CompareOutcome.looping :=
  retry_loop_never_returns_at_stale_guard ℚ [("a", 1500), ("b", 1500), ("c", 1500)]
    [("a", "b"), ("b", "a")] (by decide)

section CycleLemmas

/-- Filtering against an empty rejected-folder listing changes nothing. -/
theorem filter_nil_id (l : List String) :
    l.filter (fun f => f ∉ ([] : List String)) = l := by
  simp

/-- With an empty rejected-folder listing the live list is unchanged. -/
theorem live_files_nil {ρ : Type} (s : RaterState ρ) : live_files [] s = s.image_files := by
  unfold live_files
  cases hf : s.is_folder <;> simp [filter_nil_id]

/-- Inversion of a successful scheduling step of `compare_images`. -/
theorem compare_images_scheduled_inv {ρ : Type} {rejectedDir : List String}
    {draws : List IPair} {s : RaterState ρ} {p : IPair} {t : RaterState ρ}
    (h : compare_images rejectedDir draws s = (.scheduled p, t)) :
    s.current_comparison = none ∧
    get_next_comparison s.comparisons draws = some (p, s.comparisons ++ [p]) ∧
    t = { s with
          image_files := live_files rejectedDir s,
          comparisons := s.comparisons ++ [p],
          current_comparison := some p } := by
  simp only [compare_images] at h
  split at h
  · exact absurd (congrArg Prod.fst h) (by simp)
  · split at h
    · exact absurd (congrArg Prod.fst h) (by simp)
    · next hcur =>
      split at h
      · split at h
        · next q comps heq =>
          obtain ⟨hq, ht⟩ : CompareOutcome.scheduled q = CompareOutcome.scheduled p ∧ _ = t :=
            ⟨congrArg Prod.fst h, congrArg Prod.snd h⟩
          obtain rfl : q = p := by simpa using hq
          obtain ⟨-, -, -, hc⟩ := get_next_comparison_sound s.comparisons draws q comps heq
          subst hc
          exact ⟨hcur, heq, ht.symm⟩
        · exact absurd (congrArg Prod.fst h) (by simp)
      · exact absurd (congrArg Prod.fst h) (by simp)

/-- `update_ratings` changes only the `ratings` field. -/
theorem update_ratings_proj {ρ : Type} [LinearOrderedField ρ] (tenPow : ρ → ρ)
    (s : RaterState ρ) (image1 image2 winner : String) :
    (update_ratings tenPow s image1 image2 winner).comparisons = s.comparisons ∧
    (update_ratings tenPow s image1 image2 winner).image_files = s.image_files ∧
    (update_ratings tenPow s image1 image2 winner).num_images = s.num_images ∧
    (update_ratings tenPow s image1 image2 winner).is_folder = s.is_folder ∧
    (update_ratings tenPow s image1 image2 winner).current_comparison
      = s.current_comparison ∧
    (update_ratings tenPow s image1 image2 winner).current_comparison_number
      = s.current_comparison_number ∧
    (update_ratings tenPow s image1 image2 winner).set_name = s.set_name := by
  unfold update_ratings
  split <;> exact ⟨rfl, rfl, rfl, rfl, rfl, rfl, rfl⟩

/-- Fields of the state after `choose_left` resolves a pending comparison. -/
theorem choose_left_fields {ρ : Type} [LinearOrderedField ρ] (tenPow : ρ → ρ)
    (s : RaterState ρ) (p : IPair) (h : s.current_comparison = some p) :
    (choose_left tenPow s).comparisons = s.comparisons ∧
    (choose_left tenPow s).current_comparison = none ∧
    (choose_left tenPow s).image_files = s.image_files ∧
    (choose_left tenPow s).num_images = s.num_images ∧
    (choose_left tenPow s).is_folder = s.is_folder := by
  obtain ⟨c0, c1⟩ := p
  have hu := update_ratings_proj tenPow s c0 c1 c0
  unfold choose_left
  rw [h]
  exact ⟨hu.1, rfl, hu.2.1, hu.2.2.1, hu.2.2.2.1⟩

/-- Fields of the state after `choose_right` resolves a pending comparison. -/
theorem choose_right_fields {ρ : Type} [LinearOrderedField ρ] (tenPow : ρ → ρ)
    (s : RaterState ρ) (p : IPair) (h : s.current_comparison = some p) :
    (choose_right tenPow s).comparisons = s.comparisons ∧
    (choose_right tenPow s).current_comparison = none ∧
    (choose_right tenPow s).image_files = s.image_files ∧
    (choose_right tenPow s).num_images = s.num_images ∧
    (choose_right tenPow s).is_folder = s.is_folder := by
  obtain ⟨c0, c1⟩ := p
  have hu := update_ratings_proj tenPow s c0 c1 c1
  unfold choose_right
  rw [h]
  exact ⟨hu.1, rfl, hu.2.1, hu.2.2.1, hu.2.2.2.1⟩

/-- A successful scheduling-plus-decision cycle with no rejections adds
exactly one comparison record, clears the pending comparison and leaves the
live list and image count unchanged. -/
theorem do_cycle_some_inv {ρ : Type} [LinearOrderedField ρ] (tenPow : ρ → ρ)
    (draws : List IPair) (lw : Bool) (s s' : RaterState ρ)
    (h : do_cycle tenPow [] draws lw s = some s') :
    s'.comparisons.length = s.comparisons.length + 1 ∧
    s'.current_comparison = none ∧
    s'.image_files = s.image_files ∧
    s'.num_images = s.num_images ∧
    s'.is_folder = s.is_folder := by
  unfold do_cycle at h
  split at h
  · next p t heq =>
    obtain rfl : _ = s' := Option.some.inj h
    obtain ⟨hcur, hgnc, rfl⟩ := compare_images_scheduled_inv heq
    set t1 : RaterState ρ :=
      { s with image_files := live_files [] s,
               comparisons := s.comparisons ++ [p],
               current_comparison := some p } with ht1
    have hfields :
        (if lw then choose_left tenPow t1 else choose_right tenPow t1).comparisons
            = t1.comparisons ∧
        (if lw then choose_left tenPow t1 else choose_right tenPow t1).current_comparison
            = none ∧
        (if lw then choose_left tenPow t1 else choose_right tenPow t1).image_files
            = t1.image_files ∧
        (if lw then choose_left tenPow t1 else choose_right tenPow t1).num_images
            = t1.num_images ∧
        (if lw then choose_left tenPow t1 else choose_right tenPow t1).is_folder
            = t1.is_folder := by
      cases lw
      · simpa using choose_right_fields tenPow t1 p rfl
      · simpa using choose_left_fields tenPow t1 p rfl
    obtain ⟨h1, h2, h3, h4, h5⟩ := hfields
    refine ⟨?_, h2, ?_, h4, h5⟩
    · rw [h1]; simp [ht1]
    · rw [h3, ht1, live_files_nil]
  · exact absurd h (by simp)

/-- Invariant of a run of successful no-rejection cycles: each cycle adds one
comparison record; the live list, image count and folder flag are untouched
and no comparison is left pending. -/
theorem run_cycles_inv {ρ : Type} [LinearOrderedField ρ] (tenPow : ρ → ρ) :
    ∀ (inputs : List (List IPair × Bool)) (s s' : RaterState ρ),
      s.current_comparison = none →
      run_cycles tenPow [] inputs s = some s' →
      s'.comparisons.length = s.comparisons.length + inputs.length ∧
      s'.current_comparison = none ∧
      s'.image_files = s.image_files ∧
      s'.num_images = s.num_images ∧
      s'.is_folder = s.is_folder := by
  intro inputs
  induction inputs with
  | nil =>
    intro s s' hcur h
    obtain rfl : s = s' := Option.some.inj h
    simp [hcur]
  | cons i rest ih =>
    intro s s' hcur h
    obtain ⟨draws, lw⟩ := i
    simp only [run_cycles] at h
    cases hdc : do_cycle tenPow [] draws lw s with
    | none => rw [hdc] at h; exact absurd h (by simp)
    | some s1 =>
      rw [hdc] at h
      obtain ⟨l1, c1, f1, n1, b1⟩ := do_cycle_some_inv tenPow draws lw s s1 hdc
      obtain ⟨l2, c2, f2, n2, b2⟩ := ih s1 s' c1 h
      refine ⟨?_, c2, f2.trans f1, n2.trans n1, b2.trans b1⟩
      rw [l2, l1, List.length_cons]
      omega

/-- With the full-pair-count guard satisfied (or fewer than two live images),
`compare_images` never schedules a new pair. -/
theorem compare_images_not_scheduled {ρ : Type} (rejectedDir : List String)
    (draws : List IPair) (s : RaterState ρ) (p : IPair) (t : RaterState ρ)
    (hguard : s.num_images * (s.num_images - 1) / 2 ≤ s.comparisons.length ∨
      (live_files rejectedDir s).length < 2) :
    compare_images rejectedDir draws s ≠ (.scheduled p, t) := by
  intro h
  simp only [compare_images] at h
  split at h
  · exact absurd (congrArg Prod.fst h) (by simp)
  · next hlen =>
    rcases hguard with hguard | hguard
    · split at h
      · exact absurd (congrArg Prod.fst h) (by simp)
      · split at h
        · next hcond => exact absurd hcond.1 (by omega)
        · exact absurd (congrArg Prod.fst h) (by simp)
    · exact absurd hguard (by omega)

/-- When every possible pair is recorded (or too few images remain) and no
comparison is pending, `compare_images` reports completion. -/
theorem compare_images_reports_done {ρ : Type} (rejectedDir : List String)
    (draws : List IPair) (s : RaterState ρ)
    (hcur : s.current_comparison = none)
    (hge : s.num_images * (s.num_images - 1) / 2 ≤ s.comparisons.length) :
    (compare_images rejectedDir draws s).1 = CompareOutcome.allDone ∨
    (compare_images rejectedDir draws s).1 = CompareOutcome.notEnoughImages := by
  simp only [compare_images]
  split
  · right; rfl
  · rw [hcur]
    rw [if_neg (by omega)]
    left; rfl

end CycleLemmas

/-- C5: (i) starting a fresh no-rejection session over any image list and
completing exactly `n * (n - 1) / 2` successful scheduling-plus-decision
cycles, the next `compare_images` call reports completion (the session is
exhausted) for every draw sequence; (ii) in any state in which the record
count has reached `num_images * (num_images - 1) / 2`, or fewer than two
live images remain after the rejected-folder filter, no new pair is ever
scheduled. -/
theorem exhaustion_after_all_pairs (ρ : Type) [LinearOrderedField ρ] (tenPow : ρ → ρ) :
    (∀ (files : List String) (inputs : List (List IPair × Bool)) (s1 : RaterState ρ),
        inputs.length = files.length * (files.length - 1) / 2 →
        run_cycles tenPow [] inputs (fresh_state files) = some s1 →
        ∀ draws : List IPair,
          (compare_images [] draws s1).1 = CompareOutcome.allDone ∨
          (compare_images [] draws s1).1 = CompareOutcome.notEnoughImages) ∧
    (∀ (s : RaterState ρ) (rejectedDir : List String) (draws : List IPair)
        (p : IPair) (t : RaterState ρ),
        s.num_images * (s.num_images - 1) / 2 ≤ s.comparisons.length ∨
          (live_files rejectedDir s).length < 2 →
        compare_images rejectedDir draws s ≠ (.scheduled p, t)) := by
  constructor
  · intro files inputs s1 hlen hrun draws
    obtain ⟨l1, c1, -, n1, -⟩ :=
      run_cycles_inv tenPow inputs (fresh_state files) s1 rfl hrun
    refine compare_images_reports_done [] draws s1 c1 ?_
    have hfresh_len : (fresh_state (ρ := ρ) files).comparisons.length = 0 := rfl
    have hfresh_num : (fresh_state (ρ := ρ) files).num_images = files.length := rfl
    rw [l1, hfresh_len, n1, hfresh_num, hlen]
    omega
  · intro s rejectedDir draws p t hguard
    exact compare_images_not_scheduled rejectedDir draws s p t hguard

/-- Witness for C5: a one-image session is exhausted after its zero required
cycles, and a state with all pairs recorded never schedules. -/
theorem exhaustion_after_all_pairs_witness :
    ((compare_images [] [] (fresh_state (ρ := ℚ) ["a"])).1 = CompareOutcome.allDone ∨
     (compare_images [] [] (fresh_state (ρ := ℚ) ["a"])).1 =
       CompareOutcome.notEnoughImages) ∧
    compare_images [] [("a", "b")] (fresh_state (ρ := ℚ) ["a"]) ≠
      (.scheduled ("a", "b"), fresh_state (ρ := ℚ) ["a"]) :=
  ⟨(exhaustion_after_all_pairs ℚ (fun x => x)).1 ["a"] [] (fresh_state ["a"]) rfl rfl [],
   (exhaustion_after_all_pairs ℚ (fun x => x)).2 (fresh_state ["a"])
     [] [("a", "b")] ("a", "b") (fresh_state ["a"]) (Or.inl (by decide))⟩

section LookupLemmas

/-- A key that is not among the keys of an association list looks up to
`none`. -/
theorem lookup_eq_none_of_not_mem_keys {ρ : Type} (k : String) :
    ∀ (l : List (String × ρ)), k ∉ l.map Prod.fst → l.lookup k = none := by
  intro l
  induction l with
  | nil => intro _; rfl
  | cons a t ih =>
    intro h
    have h1 : k ≠ a.1 := by
      intro he
      exact h (by simp [he])
    have h2 : k ∉ t.map Prod.fst := fun hm => h (by simp [hm])
    obtain ⟨a1, a2⟩ := a
    simp only [List.lookup]
    rw [show (k == a1) = false from beq_eq_false_iff_ne.mpr h1]
    exact ih h2

/-- Deleting a key from an association list with distinct keys makes it look
up to `none` (Python `del self.ratings[k]`). -/
theorem lookup_eraseP_self {ρ : Type} (k : String) :
    ∀ (l : List (String × ρ)), (l.map Prod.fst).Nodup →
      (l.eraseP (fun q => q.1 == k)).lookup k = none := by
  intro l
  induction l with
  | nil => intro _; rfl
  | cons a t ih =>
    intro h
    obtain ⟨a1, a2⟩ := a
    rw [List.map_cons, List.nodup_cons] at h
    by_cases he : a1 = k
    · subst he
      rw [List.eraseP_cons_of_pos (by simp)]
      exact lookup_eq_none_of_not_mem_keys a1 t h.1
    · rw [List.eraseP_cons_of_neg (by simpa using he)]
      simp only [List.lookup]
      rw [show (k == a1) = false from beq_eq_false_iff_ne.mpr (Ne.symm he)]
      exact ih h.2

/-- `setKey` leaves the looked-up value of every other key unchanged. -/
theorem lookup_setKey_ne {ρ : Type} (k k' : String) (v : ρ) (h : k' ≠ k) :
    ∀ (l : List (String × ρ)), (setKey l k v).lookup k' = l.lookup k' := by
  intro l
  induction l with
  | nil => rfl
  | cons a t ih =>
    obtain ⟨a1, a2⟩ := a
    by_cases ha : a1 = k
    · subst ha
      rw [show setKey ((a1, a2) :: t) a1 v = (a1, v) :: setKey t a1 v from by simp [setKey]]
      simp only [List.lookup]
      rw [show (k' == a1) = false from beq_eq_false_iff_ne.mpr h]
      exact ih
    · rw [show setKey ((a1, a2) :: t) k v = (a1, a2) :: setKey t k v from by
        simp [setKey, ha]]
      simp only [List.lookup]
      cases hk : k' == a1
      · exact ih
      · rfl

/-- `setKey` overwrites the looked-up value of a present key. -/
theorem lookup_setKey_self {ρ : Type} (k : String) (v : ρ) :
    ∀ (l : List (String × ρ)), (setKey l k v).lookup k = (l.lookup k).map (fun _ => v) := by
  intro l
  induction l with
  | nil => rfl
  | cons a t ih =>
    obtain ⟨a1, a2⟩ := a
    by_cases ha : a1 = k
    · subst ha
      rw [show setKey ((a1, a2) :: t) a1 v = (a1, v) :: setKey t a1 v from by simp [setKey]]
      simp only [List.lookup, beq_self_eq_true]
      rfl
    · rw [show setKey ((a1, a2) :: t) k v = (a1, a2) :: setKey t k v from by
        simp [setKey, ha]]
      simp only [List.lookup]
      rw [show (k == a1) = false from beq_eq_false_iff_ne.mpr (fun he => ha he.symm)]
      exact ih

end LookupLemmas

section RejectLemmas

/-- After a rejection the live list is the previous one with the rejected
image removed. -/
theorem reject_image_files {ρ : Type} (side : Side) (s : RaterState ρ) (p : IPair)
    (hcur : s.current_comparison = some p) :
    (reject_image side s).image_files = s.image_files.erase (rejectedOf side p) := by
  unfold reject_image
  rw [hcur]
  cases hg : get_next_image s.comparisons (survivorOf side p)
      (s.image_files.erase (rejectedOf side p)) with
  | none => simp [hg]
  | some nc => obtain ⟨b, c⟩ := nc; simp [hg]

/-- After a rejection the ratings store is the previous one with the rejected
image's entry deleted. -/
theorem reject_image_ratings {ρ : Type} (side : Side) (s : RaterState ρ) (p : IPair)
    (hcur : s.current_comparison = some p) :
    (reject_image side s).ratings = s.ratings.eraseP (fun q => q.1 == rejectedOf side p) := by
  unfold reject_image
  rw [hcur]
  cases hg : get_next_image s.comparisons (survivorOf side p)
      (s.image_files.erase (rejectedOf side p)) with
  | none => simp [hg]
  | some nc => obtain ⟨b, c⟩ := nc; simp [hg]

/-- After a rejection the pending comparison is the result of the
deterministic scan for the survivor, which keeps its original side. -/
theorem reject_image_current {ρ : Type} (side : Side) (s : RaterState ρ) (p : IPair)
    (hcur : s.current_comparison = some p) :
    (reject_image side s).current_comparison =
      (get_next_image s.comparisons (survivorOf side p)
          (s.image_files.erase (rejectedOf side p))).map
        (fun nc => match side with
                   | Side.left => (nc.1, survivorOf side p)
                   | Side.right => (survivorOf side p, nc.1)) := by
  unfold reject_image
  rw [hcur]
  cases hg : get_next_image s.comparisons (survivorOf side p)
      (s.image_files.erase (rejectedOf side p)) with
  | none => simp [hg]
  | some nc =>
    obtain ⟨b, comps⟩ := nc
    simp only [hg, Option.map_some]
    cases side <;> rfl

/-- `choose_left` never changes the live list. -/
theorem choose_left_files_eq {ρ : Type} [LinearOrderedField ρ] (tenPow : ρ → ρ)
    (u : RaterState ρ) : (choose_left tenPow u).image_files = u.image_files := by
  cases hc : u.current_comparison with
  | none => unfold choose_left; rw [hc]
  | some p => exact (choose_left_fields tenPow u p hc).2.2.1

/-- `choose_right` never changes the live list. -/
theorem choose_right_files_eq {ρ : Type} [LinearOrderedField ρ] (tenPow : ρ → ρ)
    (u : RaterState ρ) : (choose_right tenPow u).image_files = u.image_files := by
  cases hc : u.current_comparison with
  | none => unfold choose_right; rw [hc]
  | some p => exact (choose_right_fields tenPow u p hc).2.2.1

/-- The state returned by `compare_images` always carries the filtered live
list. -/
theorem compare_images_state_files {ρ : Type} (rejectedDir : List String)
    (draws : List IPair) (u : RaterState ρ) :
    ((compare_images rejectedDir draws u).2).image_files = live_files rejectedDir u := by
  simp only [compare_images]
  split
  · rfl
  · split
    · rfl
    · split
      · split <;> rfl
      · rfl

/-- The rejected-folder filter can only remove images from the live list. -/
theorem not_mem_live_files {ρ : Type} (rejectedDir : List String) (u : RaterState ρ)
    (x : String) (hx : x ∉ u.image_files) : x ∉ live_files rejectedDir u := by
  unfold live_files
  cases u.is_folder
  · simpa using hx
  · simp only [if_pos rfl]
    intro hm
    exact hx (List.mem_of_mem_filter hm)

end RejectLemmas

/-- C6: rejecting one side of the pending comparison (i) removes the rejected
image from the live list and (ii) from the ratings store; (iii) the surviving
image becomes the anchor of the deterministic re-pairing scan and keeps its
original left/right side in the new pending comparison (cleared when no
partner remains); and no pair containing the rejected image can ever be
scheduled afterwards: (iv) both schedulers only emit images of the current
live list, and (v) every core operation preserves absence from the live
list. -/
theorem reject_removes_image_and_keeps_side (ρ : Type) [LinearOrderedField ρ]
    (tenPow : ρ → ρ) (s : RaterState ρ) (side : Side) (p : IPair)
    (hcur : s.current_comparison = some p)
    (hnodupF : s.image_files.Nodup)
    (hnodupR : (s.ratings.map Prod.fst).Nodup)
    (x : String) (files : List String) (draws : List IPair) (comps : List IPair)
    (anchor b : String) (q : IPair) (comps2 : List IPair)
    (u : RaterState ρ) (side2 : Side) (rejectedDir : List String)
    (draws2 : List IPair) :
    (rejectedOf side p ∉ (reject_image side s).image_files) ∧
    ((reject_image side s).ratings.lookup (rejectedOf side p) = none) ∧
    ((reject_image side s).current_comparison =
      (get_next_image s.comparisons (survivorOf side p)
          (s.image_files.erase (rejectedOf side p))).map
        (fun nc => match side with
                   | Side.left => (nc.1, survivorOf side p)
                   | Side.right => (survivorOf side p, nc.1))) ∧
    (x ∉ files → (∀ d ∈ draws, d.1 ∈ files ∧ d.2 ∈ files) →
      get_next_comparison comps draws = some (q, comps2) → q.1 ≠ x ∧ q.2 ≠ x) ∧
    (x ∉ files → get_next_image comps anchor files = some (b, comps2) → b ≠ x) ∧
    (x ∉ u.image_files →
      x ∉ (choose_left tenPow u).image_files ∧
      x ∉ (choose_right tenPow u).image_files ∧
      x ∉ (reject_image side2 u).image_files ∧
      x ∉ ((compare_images rejectedDir draws2 u).2).image_files) := by
  refine ⟨?_, ?_, reject_image_current side s p hcur, ?_, ?_, ?_⟩
  · rw [reject_image_files side s p hcur]
    exact hnodupF.not_mem_erase
  · rw [reject_image_ratings side s p hcur]
    exact lookup_eraseP_self (rejectedOf side p) s.ratings hnodupR
  · intro hx hdraws hgnc
    obtain ⟨hmem, -, -, -⟩ := get_next_comparison_sound comps draws q comps2 hgnc
    obtain ⟨h1, h2⟩ := hdraws q hmem
    exact ⟨fun he => hx (he ▸ h1), fun he => hx (he ▸ h2)⟩
  · intro hx hgni
    obtain ⟨hmem, -, -, -⟩ := get_next_image_sound comps anchor files b comps2 hgni
    exact fun he => hx (he ▸ hmem)
  · intro hx
    refine ⟨?_, ?_, ?_, ?_⟩
    · rw [choose_left_files_eq]; exact hx
    · rw [choose_right_files_eq]; exact hx
    · cases hc : u.current_comparison with
      | none =>
        have : reject_image side2 u = u := by unfold reject_image; rw [hc]
        rw [this]; exact hx
      | some pu =>
        rw [reject_image_files side2 u pu hc]
        intro hm
        exact hx ((u.image_files.erase_sublist (rejectedOf side2 pu)).subset hm)
    · rw [compare_images_state_files]
      exact not_mem_live_files rejectedDir u x hx

/-- Witness for C6: rejecting the left image `a` of the pending pair
`(a, b)` in a three-image session. -/
theorem reject_removes_image_and_keeps_side_witness :
    (rejectedOf Side.left ("a", "b") ∉ (reject_image Side.left pending_ab_state).image_files) ∧
    ((reject_image Side.left pending_ab_state).ratings.lookup
        (rejectedOf Side.left ("a", "b")) = none) ∧
    ((reject_image Side.left pending_ab_state).current_comparison =
      (get_next_image pending_ab_state.comparisons (survivorOf Side.left ("a", "b"))
          (pending_ab_state.image_files.erase (rejectedOf Side.left ("a", "b")))).map
        (fun nc => match Side.left with
                   | Side.left => (nc.1, survivorOf Side.left ("a", "b"))
                   | Side.right => (survivorOf Side.left ("a", "b"), nc.1))) ∧
    ("a" ∉ (["b", "c"] : List String) →
      (∀ d ∈ ([("b", "c")] : List IPair),
          d.1 ∈ (["b", "c"] : List String) ∧ d.2 ∈ (["b", "c"] : List String)) →
      get_next_comparison [("a", "b")] [("b", "c")] =
        some (("b", "c"), [("a", "b"), ("b", "c")]) →
      ("b", "c").1 ≠ "a" ∧ ("b", "c").2 ≠ "a") ∧
    ("a" ∉ (["b", "c"] : List String) →
      get_next_image [("a", "b")] "b" ["b", "c"] = some ("c", [("a", "b"), ("b", "c")]) →
      "c" ≠ "a") ∧
    ("a" ∉ (fresh_state (ρ := ℚ) ["b", "c"]).image_files →
      "a" ∉ (choose_left (fun x => x) (fresh_state (ρ := ℚ) ["b", "c"])).image_files ∧
      "a" ∉ (choose_right (fun x => x) (fresh_state (ρ := ℚ) ["b", "c"])).image_files ∧
      "a" ∉ (reject_image Side.left (fresh_state (ρ := ℚ) ["b", "c"])).image_files ∧
      "a" ∉ ((compare_images [] [] (fresh_state (ρ := ℚ) ["b", "c"])).2).image_files) :=
  reject_removes_image_and_keeps_side ℚ (fun x => x) pending_ab_state Side.left
    ("a", "b") rfl (by decide) (by decide) "a" ["b", "c"] [("b", "c")] [("a", "b")]
    "b" "c" ("b", "c") [("a", "b"), ("b", "c")] (fresh_state ["b", "c"]) Side.left [] []

section EloLemmas

/-- Looked-up ratings after `update_ratings(image1 = winner, image2 = loser,
winner)`, the call made by `choose_left` (line 460). -/
theorem update_ratings_lookup_first {ρ : Type} [LinearOrderedField ρ] (tenPow : ρ → ρ)
    (s : RaterState ρ) (w l : String) (hne : w ≠ l) (rw rl : ρ)
    (hw : s.ratings.lookup w = some rw) (hl : s.ratings.lookup l = some rl) :
    (update_ratings tenPow s w l w).ratings.lookup w
      = some (rw + 32 * (1 - 1 / (1 + tenPow ((rl - rw) / 400)))) ∧
    (update_ratings tenPow s w l w).ratings.lookup l
      = some (rl + 32 * (0 - 1 / (1 + tenPow ((rw - rl) / 400)))) := by
  simp only [update_ratings, if_true, eq_self_iff_true]
  constructor
  · rw [lookup_setKey_ne l w _ (fun h => hne h), lookup_setKey_self]
    simp [hw, hl]
  · rw [lookup_setKey_self]
    rw [lookup_setKey_ne w l _ (fun h => hne h.symm)]
    simp [hw, hl]

/-- Looked-up ratings after `update_ratings(image1 = loser, image2 = winner,
winner)`, the call made by `choose_right` (line 467). -/
theorem update_ratings_lookup_second {ρ : Type} [LinearOrderedField ρ] (tenPow : ρ → ρ)
    (s : RaterState ρ) (w l : String) (hne : w ≠ l) (rw rl : ρ)
    (hw : s.ratings.lookup w = some rw) (hl : s.ratings.lookup l = some rl) :
    (update_ratings tenPow s l w w).ratings.lookup w
      = some (rw + 32 * (1 - 1 / (1 + tenPow ((rl - rw) / 400)))) ∧
    (update_ratings tenPow s l w w).ratings.lookup l
      = some (rl + 32 * (0 - 1 / (1 + tenPow ((rw - rl) / 400)))) := by
  simp only [update_ratings]
  rw [if_neg hne]
  constructor
  · rw [lookup_setKey_self]
    rw [lookup_setKey_ne l w _ (fun h => hne h)]
    simp [hw, hl]
  · rw [lookup_setKey_ne w l _ (fun h => hne h.symm), lookup_setKey_self]
    simp [hw, hl]

end EloLemmas

/-- C1: for live images with pre-update ratings `rw` (winner) and `rl`
(loser), both decision call patterns of `update_ratings` set the winner's new
rating to `rw + 32 * (1 - 1 / (1 + 10 ^ ((rl - rw) / 400)))` and the loser's
to `rl + 32 * (0 - 1 / (1 + 10 ^ ((rw - rl) / 400)))` — both computed from
the pre-update values of both ratings (simultaneous) and with no clamping. -/
theorem update_ratings_matches_spec_formula (s : RaterState ℝ) (w l : String)
    (hne : w ≠ l) (rw rl : ℝ)
    (hw : s.ratings.lookup w = some rw) (hl : s.ratings.lookup l = some rl) :
    ((update_ratings (fun x => (10:ℝ) ^ x) s w l w).ratings.lookup w
        = some (rw + 32 * (1 - 1 / (1 + (10:ℝ) ^ ((rl - rw) / 400)))) ∧
     (update_ratings (fun x => (10:ℝ) ^ x) s w l w).ratings.lookup l
        = some (rl + 32 * (0 - 1 / (1 + (10:ℝ) ^ ((rw - rl) / 400))))) ∧
    ((update_ratings (fun x => (10:ℝ) ^ x) s l w w).ratings.lookup w
        = some (rw + 32 * (1 - 1 / (1 + (10:ℝ) ^ ((rl - rw) / 400)))) ∧
     (update_ratings (fun x => (10:ℝ) ^ x) s l w w).ratings.lookup l
        = some (rl + 32 * (0 - 1 / (1 + (10:ℝ) ^ ((rw - rl) / 400))))) :=
  ⟨update_ratings_lookup_first (fun x => (10:ℝ) ^ x) s w l hne rw rl hw hl,
   update_ratings_lookup_second (fun x => (10:ℝ) ^ x) s w l hne rw rl hw hl⟩

/-- Witness for C1 at two equally rated images. -/
theorem update_ratings_matches_spec_formula_witness :
    ((update_ratings (fun x => (10:ℝ) ^ x) (fresh_state ["a", "b"]) "a" "b" "a").ratings.lookup "a"
        = some (1500 + 32 * (1 - 1 / (1 + (10:ℝ) ^ (((1500:ℝ) - 1500) / 400)))) ∧
     (update_ratings (fun x => (10:ℝ) ^ x) (fresh_state ["a", "b"]) "a" "b" "a").ratings.lookup "b"
        = some (1500 + 32 * (0 - 1 / (1 + (10:ℝ) ^ (((1500:ℝ) - 1500) / 400))))) ∧
    ((update_ratings (fun x => (10:ℝ) ^ x) (fresh_state ["a", "b"]) "b" "a" "a").ratings.lookup "a"
        = some (1500 + 32 * (1 - 1 / (1 + (10:ℝ) ^ (((1500:ℝ) - 1500) / 400)))) ∧
     (update_ratings (fun x => (10:ℝ) ^ x) (fresh_state ["a", "b"]) "b" "a" "a").ratings.lookup "b"
        = some (1500 + 32 * (0 - 1 / (1 + (10:ℝ) ^ (((1500:ℝ) - 1500) / 400))))) :=
  update_ratings_matches_spec_formula (fresh_state ["a", "b"]) "a" "b"
    (by decide) 1500 1500 rfl rfl

/-- C9: for all finite pre-update ratings, the winner's rating strictly
increases and the loser's strictly decreases, because the expected-score term
`1 / (1 + 10 ^ ((rl - rw) / 400))` lies strictly between 0 and 1. -/
theorem winner_strictly_gains_loser_strictly_drops (s : RaterState ℝ) (w l : String)
    (hne : w ≠ l) (rw rl vw vl : ℝ)
    (hw : s.ratings.lookup w = some rw) (hl : s.ratings.lookup l = some rl)
    (hvw : (update_ratings (fun x => (10:ℝ) ^ x) s w l w).ratings.lookup w = some vw)
    (hvl : (update_ratings (fun x => (10:ℝ) ^ x) s w l w).ratings.lookup l = some vl) :
    rw < vw ∧ vl < rl := by
  obtain ⟨h1, h2⟩ :=
    update_ratings_lookup_first (fun x => (10:ℝ) ^ x) s w l hne rw rl hw hl
  rw [h1] at hvw
  rw [h2] at hvl
  obtain rfl := Option.some.inj hvw
  obtain rfl := Option.some.inj hvl
  constructor
  · have hpos : (0:ℝ) < (10:ℝ) ^ ((rl - rw) / 400) :=
      Real.rpow_pos_of_pos (by norm_num) _
    have he1 : 1 / (1 + (10:ℝ) ^ ((rl - rw) / 400)) < 1 := by
      rw [div_lt_one (by linarith)]
      linarith
    linarith
  · have hpos : (0:ℝ) < (10:ℝ) ^ ((rw - rl) / 400) :=
      Real.rpow_pos_of_pos (by norm_num) _
    have he2 : 0 < 1 / (1 + (10:ℝ) ^ ((rw - rl) / 400)) :=
      div_pos one_pos (by linarith)
    linarith

/-- Witness for C9 at two equally rated images. -/
theorem winner_strictly_gains_loser_strictly_drops_witness :
    (1500:ℝ) < 1500 + 32 * (1 - 1 / (1 + (10:ℝ) ^ (((1500:ℝ) - 1500) / 400))) ∧
    1500 + 32 * (0 - 1 / (1 + (10:ℝ) ^ (((1500:ℝ) - 1500) / 400))) < 1500 :=
  winner_strictly_gains_loser_strictly_drops (fresh_state ["a", "b"]) "a" "b"
    (by decide) 1500 1500 _ _ rfl rfl rfl rfl

section CategoryLemmas

/-- The category column of `save_ratings_to_exif` depends only on the sorted
position: it is `exif_rating i n` for `i` over the index range. -/
theorem save_ratings_to_exif_snd {ρ : Type} [LinearOrder ρ] (l : List (String × ρ)) :
    (save_ratings_to_exif l).map Prod.snd
      = (List.range l.length).map (fun i => exif_rating i l.length) := by
  unfold save_ratings_to_exif
  rw [List.map_map]
  have h1 : (Prod.snd ∘ fun ip : Nat × (String × ρ) =>
        (ip.2.1, exif_rating ip.1 (sorted_images l).length))
      = (fun i => exif_rating i (sorted_images l).length) ∘ Prod.fst := rfl
  rw [h1, ← List.map_map, List.enum_map_fst]
  rw [show (sorted_images l).length = l.length from
    List.length_insertionSort ratingDesc l]

/-- Bridge: how many images receive category `c` is how many sorted indices
map to `c`. -/
theorem category_filter_length {ρ : Type} [LinearOrder ρ] (l : List (String × ρ))
    (c : Nat) :
    ((save_ratings_to_exif l).filter (fun e => e.2 = c)).length
      = ((List.range l.length).filter (fun i => exif_rating i l.length = c)).length := by
  have h1 : ((save_ratings_to_exif l).filter (fun e => e.2 = c)).length
      = (((save_ratings_to_exif l).map Prod.snd).filter (fun v => v = c)).length := by
    rw [List.filter_map, List.length_map]
    rfl
  rw [h1, save_ratings_to_exif_snd, List.filter_map, List.length_map]
  rfl

/-- The ten category values at `num_images = 10`: two per bucket. -/
theorem exif_rating_vals :
    exif_rating 0 10 = 5 ∧ exif_rating 1 10 = 5 ∧ exif_rating 2 10 = 4 ∧
    exif_rating 3 10 = 4 ∧ exif_rating 4 10 = 3 ∧ exif_rating 5 10 = 3 ∧
    exif_rating 6 10 = 2 ∧ exif_rating 7 10 = 2 ∧ exif_rating 8 10 = 1 ∧
    exif_rating 9 10 = 1 := by
  refine ⟨?_, ?_, ?_, ?_, ?_, ?_, ?_, ?_, ?_, ?_⟩ <;> norm_num [exif_rating]

/-- In a descending-sorted list with pairwise distinct ratings, an element at
index 2 or beyond has at least two strictly greater-rated elements. -/
theorem sorted_index_lt_two {ρ : Type} [LinearOrder ρ] (S : List (String × ρ))
    (hsorted : List.Sorted ratingDesc S)
    (hdist : S.Pairwise (fun a b => a.2 ≠ b.2))
    (i : Nat) (hi : i < S.length) (p : String × ρ) (hgi : S[i] = p)
    (hcnt : (S.filter (fun q => p.2 < q.2)).length < 2) :
    i < 2 := by
  by_contra hge
  push_neg at hge
  obtain ⟨A, t1, rfl⟩ : ∃ A t1, S = A :: t1 := by
    cases S with
    | nil => simp at hi
    | cons A t1 => exact ⟨A, t1, rfl⟩
  obtain ⟨B, t2, rfl⟩ : ∃ B t2, t1 = B :: t2 := by
    cases t1 with
    | nil => simp at hi; omega
    | cons B t2 => exact ⟨B, t2, rfl⟩
  obtain ⟨k, rfl⟩ : ∃ k, i = k + 2 := ⟨i - 2, by omega⟩
  have hkt : k < t2.length := by
    simp only [List.length_cons] at hi
    omega
  have hgi' : t2[k] = p := by simpa using hgi
  have hp_t2 : p ∈ t2 := hgi' ▸ List.getElem_mem hkt
  obtain ⟨hA_all, hs1⟩ := List.sorted_cons.mp hsorted
  obtain ⟨hB_all, -⟩ := List.sorted_cons.mp hs1
  have hA_le : p.2 ≤ A.2 := hA_all p (List.mem_cons_of_mem _ hp_t2)
  have hB_le : p.2 ≤ B.2 := hB_all p hp_t2
  obtain ⟨hA_ne_all, hd1⟩ := List.pairwise_cons.mp hdist
  obtain ⟨hB_ne_all, -⟩ := List.pairwise_cons.mp hd1
  have hA_lt : p.2 < A.2 :=
    lt_of_le_of_ne hA_le (Ne.symm (hA_ne_all p (List.mem_cons_of_mem _ hp_t2)))
  have hB_lt : p.2 < B.2 := lt_of_le_of_ne hB_le (Ne.symm (hB_ne_all p hp_t2))
  have hcount : 2 ≤ ((A :: B :: t2).filter (fun q => p.2 < q.2)).length := by
    rw [List.filter_cons_of_pos (by simpa using hA_lt),
      List.filter_cons_of_pos (by simpa using hB_lt)]
    simp only [List.length_cons]
    omega
  omega

/-- Among 10 identifiers with pairwise distinct ratings, any identifier with
fewer than two strictly better-rated ones is assigned category 5. -/
theorem top_two_get_category_five {ρ : Type} [LinearOrder ρ]
    (l : List (String × ρ)) (h10 : l.length = 10)
    (hdist : l.Pairwise (fun a b => a.2 ≠ b.2)) (p : String × ρ) (hp : p ∈ l)
    (hlt : (l.filter (fun q => p.2 < q.2)).length < 2) :
    (p.1, 5) ∈ save_ratings_to_exif l := by
  have hperm : (sorted_images l).Perm l := List.perm_insertionSort ratingDesc l
  have hsorted : List.Sorted ratingDesc (sorted_images l) :=
    List.sorted_insertionSort ratingDesc l
  have hlen_s : (sorted_images l).length = l.length := List.length_insertionSort _ l
  have hmem_s : p ∈ sorted_images l := hperm.mem_iff.mpr hp
  obtain ⟨i, hi, hgi⟩ := List.mem_iff_getElem.mp hmem_s
  have hdist_s : (sorted_images l).Pairwise (fun a b => a.2 ≠ b.2) :=
    (hperm.pairwise_iff (fun h => h.symm)).mpr hdist
  have hcnt_s : ((sorted_images l).filter (fun q => p.2 < q.2)).length < 2 := by
    rw [(hperm.filter _).length_eq]
    exact hlt
  have hi2 : i < 2 :=
    sorted_index_lt_two (sorted_images l) hsorted hdist_s i hi p hgi hcnt_s
  have hcat : exif_rating i l.length = 5 := by
    rw [h10]
    interval_cases i
    · exact exif_rating_vals.1
    · exact exif_rating_vals.2.1
  have hi_save : i < (save_ratings_to_exif l).length := by
    unfold save_ratings_to_exif
    simp only [List.length_map, List.enum_length]
    omega
  have hval : (save_ratings_to_exif l).get ⟨i, hi_save⟩ = (p.1, 5) := by
    unfold save_ratings_to_exif
    simp only [List.get_eq_getElem, List.getElem_map, List.getElem_enum]
    rw [hgi, hlen_s, hcat]
  exact hval ▸ List.get_mem (save_ratings_to_exif l) i hi_save

/-- `CategoryAssigner` on a single identifier: category 5. -/
theorem save_ratings_to_exif_singleton {ρ : Type} [LinearOrder ρ] (x : String) (r : ρ) :
    save_ratings_to_exif [(x, r)] = [(x, 5)] := by
  have h5 : exif_rating 0 1 = 5 := by norm_num [exif_rating]
  simp [save_ratings_to_exif, sorted_images, List.insertionSort, List.enum,
    List.enumFrom, h5]

end CategoryLemmas

/-- C7: category assignment sorts by rating descending and buckets by
`percentile = index / total * 100` with thresholds 20/40/60/80; hence (i) for
any 10 ratings every category 1-5 is assigned to exactly 2 identifiers, (ii)
with pairwise distinct ratings the two top-rated identifiers (fewer than two
strictly greater ratings) receive category 5, and (iii) a single surviving
identifier always receives category 5. -/
theorem category_assignment_buckets :
    (∀ (ρ : Type) [LinearOrder ρ] (l : List (String × ρ)), l.length = 10 →
      ∀ c ∈ ([1, 2, 3, 4, 5] : List Nat),
        ((save_ratings_to_exif l).filter (fun e => e.2 = c)).length = 2) ∧
    (∀ (ρ : Type) [LinearOrder ρ] (l : List (String × ρ)), l.length = 10 →
      l.Pairwise (fun a b => a.2 ≠ b.2) →
      ∀ p ∈ l, (l.filter (fun q => p.2 < q.2)).length < 2 →
        (p.1, 5) ∈ save_ratings_to_exif l) ∧
    (∀ (ρ : Type) [LinearOrder ρ] (x : String) (r : ρ),
      save_ratings_to_exif [(x, r)] = [(x, 5)]) := by
  refine ⟨?_, ?_, ?_⟩
  · intro ρ _ l h10 c hc
    rw [category_filter_length, h10]
    obtain ⟨e0, e1, e2, e3, e4, e5, e6, e7, e8, e9⟩ := exif_rating_vals
    rw [show List.range 10 = [0, 1, 2, 3, 4, 5, 6, 7, 8, 9] from rfl]
    fin_cases hc <;>
      simp [List.filter, e0, e1, e2, e3, e4, e5, e6, e7, e8, e9]
  · intro ρ _ l h10 hdist p hp hlt
    exact top_two_get_category_five l h10 hdist p hp hlt
  · intro ρ _ x r
    exact save_ratings_to_exif_singleton x r

/-- Witness for C7: ten explicitly rated images and a singleton. -/
theorem category_assignment_buckets_witness :
    (∀ c ∈ ([1, 2, 3, 4, 5] : List Nat),
      ((save_ratings_to_exif
          ([("i0", 10), ("i1", 9), ("i2", 8), ("i3", 7), ("i4", 6), ("i5", 5),
            ("i6", 4), ("i7", 3), ("i8", 2), ("i9", 1)] : List (String × Nat))).filter
        (fun e => e.2 = c)).length = 2) ∧
    (("i0", 5) ∈ save_ratings_to_exif
        ([("i0", 10), ("i1", 9), ("i2", 8), ("i3", 7), ("i4", 6), ("i5", 5),
          ("i6", 4), ("i7", 3), ("i8", 2), ("i9", 1)] : List (String × Nat))) ∧
    save_ratings_to_exif [("z", (7 : Nat))] = [("z", 5)] :=
  ⟨category_assignment_buckets.1 Nat
      [("i0", 10), ("i1", 9), ("i2", 8), ("i3", 7), ("i4", 6), ("i5", 5),
        ("i6", 4), ("i7", 3), ("i8", 2), ("i9", 1)] rfl,
   category_assignment_buckets.2.1 Nat
      [("i0", 10), ("i1", 9), ("i2", 8), ("i3", 7), ("i4", 6), ("i5", 5),
        ("i6", 4), ("i7", 3), ("i8", 2), ("i9", 1)] rfl (by decide)
      ("i0", 10) (by decide) (by decide),
   category_assignment_buckets.2.2 Nat "z" 7⟩

/-- C2 (code bug): the save/restore round trip loses the ratings.  Starting a
fresh two-image folder session, scheduling `(a, b)` and deciding for `a`
leaves `a` rated 1516; saving this state and loading the record back into the
fresh session state (the restart flow) yields rating 1500 for `a`, because
`load_set_from_file` binds `progress_data["ratings"]` to the local
`loaded_ratings` and never writes it to `self.ratings`.  The load also
reports failure (folder-mode load always returns `False` through the
`missing_files` `UnboundLocalError`). -/
theorem save_load_round_trip_loses_ratings :
    (choose_left (fun x => (10:ℝ) ^ x)
        ((compare_images [] [("a", "b")] (fresh_state ["a", "b"])).2)).ratings.lookup "a"
      = some 1516 ∧
    (load_set_from_file (fresh_state ["a", "b"])
        (save_progress (choose_left (fun x => (10:ℝ) ^ x)
          ((compare_images [] [("a", "b")] (fresh_state ["a", "b"])).2)))).2.ratings.lookup "a"
      = some 1500 ∧
    (load_set_from_file (fresh_state ["a", "b"])
        (save_progress (choose_left (fun x => (10:ℝ) ^ x)
          ((compare_images [] [("a", "b")] (fresh_state ["a", "b"])).2)))).1 = false ∧
    (1516 : ℝ) ≠ 1500 := by
  have h1 : (choose_left (fun x => (10:ℝ) ^ x)
        ((compare_images [] [("a", "b")] (fresh_state ["a", "b"])).2)).ratings.lookup "a"
      = some ((1500:ℝ) + 32 * (1 - 1 / (1 + (10:ℝ) ^ (((1500:ℝ) - 1500) / 400)))) := rfl
  have hval : (1500:ℝ) + 32 * (1 - 1 / (1 + (10:ℝ) ^ (((1500:ℝ) - 1500) / 400))) = 1516 := by
    rw [show ((1500:ℝ) - 1500) / 400 = 0 by norm_num, Real.rpow_zero]
    norm_num
  refine ⟨?_, rfl, rfl, by norm_num⟩
  rw [h1, hval]

/-- C8 counterexample: restoring `missing_ratings_record` over
`old_name_state` fails, yet the prior state is *not* left unchanged — the
set name has already been overwritten with the record's value; and the
empty-but-present `ratings` record is not rejected as corrupt: the load
proceeds and overwrites the comparison records. -/
theorem restore_missing_ratings_counterexample :
    (load_set_from_file old_name_state missing_ratings_record).1 = false ∧
    (load_set_from_file old_name_state missing_ratings_record).2.set_name = "New" ∧
    old_name_state.set_name = "Old" ∧
    (load_set_from_file old_name_state empty_ratings_record).2.comparisons = [("a", "b")] ∧
    old_name_state.comparisons = [] :=
  ⟨rfl, rfl, rfl, rfl, rfl⟩

/-- C8 (amended): restoring from a record with a missing `ratings` field
fails, but restore is not all-or-nothing: the set-name field has already
taken the record's value, everything else keeping the prior state's values;
and a record with an empty-but-present `ratings` list is not rejected as
corrupt — the load proceeds (still reporting failure, as every folder-mode
load does) and overwrites the comparison records with the record's entries
filtered to live images. -/
theorem restore_missing_ratings_not_atomic (ρ : Type) [LinearOrderedField ρ] :
    (∀ (s : RaterState ρ) (d : ProgressData ρ), d.ratings = none →
      load_set_from_file s d = (false, { s with set_name := d.set_name.getD s.set_name })) ∧
    (∀ (s : RaterState ρ) (d : ProgressData ρ) (cs : List IPair),
      d.ratings = some [] → d.comparisons = some cs →
      (load_set_from_file s d).1 = false ∧
      (load_set_from_file s d).2.comparisons
        = cs.filter (fun p => p.1 ∈ s.image_files ∧ p.2 ∈ s.image_files)) := by
  constructor
  · intro s d hr
    unfold load_set_from_file
    rw [hr]
  · intro s d cs hr hc
    unfold load_set_from_file
    rw [hr, hc]
    refine ⟨rfl, ?_⟩
    cases hcc : d.current_comparison with
    | none => simp only [hcc]
    | some pc => simp only [hcc]; split <;> rfl

/-- Witness for C8's amended statement at the concrete records. -/
theorem restore_missing_ratings_not_atomic_witness :
    load_set_from_file old_name_state missing_ratings_record
      = (false, { old_name_state with
                  set_name := missing_ratings_record.set_name.getD old_name_state.set_name }) ∧
    ((load_set_from_file old_name_state empty_ratings_record).1 = false ∧
      (load_set_from_file old_name_state empty_ratings_record).2.comparisons
        = [("a", "b")].filter
            (fun p => p.1 ∈ old_name_state.image_files ∧ p.2 ∈ old_name_state.image_files)) :=
  ⟨(restore_missing_ratings_not_atomic ℚ).1 old_name_state missing_ratings_record rfl,
   (restore_missing_ratings_not_atomic ℚ).2 old_name_state empty_ratings_record
     [("a", "b")] rfl rfl⟩

end ImageRater
